import Mathlib

/-!
Shallow embedding of the SmartMirror-Host eye-detection / CAN-reporting
program (src/config.py, src/eye_utils.py, src/main.py) and proofs about it.
-/

namespace SmartMirror

/-! ## config.py -/

/-- `EYE_DETECTION['eye_aspect_ratio_min']` in config.py (0.5). -/
def eye_aspect_ratio_min : ℚ := 1/2

/-- `EYE_DETECTION['eye_aspect_ratio_max']` in config.py (2.0). -/
def eye_aspect_ratio_max : ℚ := 2

/-- `EYE_DETECTION['max_detection_attempts']` in config.py. -/
def max_detection_attempts : ℕ := 30

/-- `CAN_CONFIG['trigger_id']` in config.py. -/
def trigger_id : ℕ := 0x200

/-- `CAN_CONFIG['data_id']` in config.py. -/
def data_id : ℕ := 0x100

/-- `ERROR_VALUES['no_eyes_detected']` in config.py. -/
def no_eyes_detected : ℤ × ℤ := (-1, -1)

/-! ## eye_utils.py : process_detected_eyes -/

/-- An axis-aligned detector rectangle `(x, y, w, h)` as produced by
`detectMultiScale` (all components non-negative integers). -/
structure Rect where
  x : ℕ
  y : ℕ
  w : ℕ
  h : ℕ
deriving DecidableEq, Repr

/-- `aspect_ratio = ew / eh` (eye_utils.py line 117), exact rational
semantics of the Python float division. -/
def aspect_ratio (e : Rect) : ℚ := (e.w : ℚ) / (e.h : ℚ)

/-- The filter predicate of eye_utils.py lines 118-119:
`eye_aspect_ratio_min <= aspect_ratio <= eye_aspect_ratio_max` (inclusive). -/
def valid_eye (e : Rect) : Bool :=
  decide (eye_aspect_ratio_min ≤ aspect_ratio e ∧
          aspect_ratio e ≤ eye_aspect_ratio_max)

/-- Insert a rectangle into a list sorted by ascending `x`, keeping it in
front of equal keys (matching the stability of Python `list.sort`). -/
def insertByX (a : Rect) : List Rect → List Rect
  | [] => [a]
  | b :: t => if a.x ≤ b.x then a :: b :: t else b :: insertByX a t

/-- `valid_eyes.sort(key=lambda eye: eye[0])` (eye_utils.py line 123):
stable sort by ascending x-coordinate. -/
def sortByX (l : List Rect) : List Rect := l.foldr insertByX []

/-- Full-frame eye center (eye_utils.py lines 132-133):
`(face_x + ex + ew // 2, roi_y + ey + eh // 2)`. -/
def eye_center (face_x roi_y : ℕ) (e : Rect) : ℕ × ℕ :=
  (face_x + e.x + e.w / 2, roi_y + e.y + e.h / 2)

/-- The filtered-then-sorted candidate list the code calls `valid_eyes`
(eye_utils.py lines 113-123): keep the candidates whose aspect ratio is
within bounds, then stably sort by ascending x. -/
def validEyesOf (eyes : List Rect) : List Rect :=
  sortByX (eyes.filter valid_eye)

/-- `process_detected_eyes` (eye_utils.py lines 97-162), result value only
(the drawing side effects are modelled separately for detect_eyes):
filter by aspect ratio, sort by x, and if 1-2 eyes survive return the
midpoint (componentwise `//`-average of the two centers, or the single
center), else `None`. -/
def process_detected_eyes (eyes : List Rect) (face_x roi_y : ℕ) :
    Option (ℕ × ℕ) :=
  let valid_eyes := validEyesOf eyes
  if 1 ≤ valid_eyes.length ∧ valid_eyes.length ≤ 2 then
    let eye_centers := valid_eyes.map (eye_center face_x roi_y)
    match eye_centers with
    | [c1, c2] => some ((c1.1 + c2.1) / 2, (c1.2 + c2.2) / 2)
    | [c] => some c
    | _ => none
  else none

/-! ## main.py : send_eye_coordinates -/

/-- Python `int()` applied to an exact rational value: truncation toward
zero (`int(q)` is `floor q` for `q ≥ 0` and `-floor (-q)` otherwise). -/
def py_int (q : ℚ) : ℤ := if 0 ≤ q then ⌊q⌋ else -⌊-q⌋

/-- Lines 80-85 of main.py for one coordinate:
`x_normalized = int((x / width) * 100)` followed by
`x_normalized = max(0, min(100, x_normalized))`, with the float
expression read in exact rational arithmetic. -/
def normalize_coord (x : ℤ) (width : ℕ) : ℤ :=
  max 0 (min 100 (py_int ((x : ℚ) / (width : ℚ) * 100)))

/-- A python-can `can.Message` as constructed at main.py lines 91-95. -/
structure CanMessage where
  arbitration_id : ℕ
  is_extended_id : Bool
  data : List ℕ
deriving DecidableEq, Repr

/-- The four bytes of one `i` field of `struct.pack`: a 32-bit
two's-complement signed integer, little-endian (native order on the
x86/ARM hosts this program targets). -/
def int32le (v : ℤ) : List ℕ :=
  let u := (v % (2 ^ 32 : ℤ)).toNat
  [u % 256, u / 256 % 256, u / 256 / 256 % 256, u / 256 / 256 / 256 % 256]

/-- `struct.pack('ii', a, b)` — `CAN_CONFIG['data_format']` is `'ii'`:
two 32-bit signed integers, 8 bytes total, no tag or length byte. -/
def pack_ii (a b : ℤ) : List ℕ := int32le a ++ int32le b

/-- Behavior of the camera that `send_eye_coordinates` acquires for its
resolution check (main.py lines 65-77): whether the open succeeds,
whether the single `read()` succeeds, and the frame dimensions. -/
structure ResolutionCamera where
  isOpened : Bool
  readOk : Bool
  width : ℕ
  height : ℕ
deriving DecidableEq, Repr

/-- Observable outcome of one `send_eye_coordinates` call: the CAN message
put on the bus (if any), the boolean return value, whether the camera open
succeeded (a handle was acquired), and whether `camera.release()` ran. -/
structure SendResult where
  message : Option CanMessage
  ok : Bool
  cameraOpened : Bool
  cameraReleased : Bool
deriving DecidableEq, Repr

/-- `send_eye_coordinates` (main.py lines 58-101). Path by path from the
source: camera open failure returns `False` with no handle acquired; a
failed resolution read returns `False` with the handle still open and
`release()` never called (the early return at line 74 precedes the
`camera.release()` at line 77); otherwise the camera is released, the
coordinates normalized and clamped, packed with the `'ii'` format, and a
message with hard-coded arbitration id `0x100` and `is_extended_id=False`
is sent. -/
def send_eye_coordinates (cam : ResolutionCamera) (x y : ℤ) : SendResult :=
  if !cam.isOpened then
    { message := none, ok := false, cameraOpened := false, cameraReleased := false }
  else if !cam.readOk then
    { message := none, ok := false, cameraOpened := true, cameraReleased := false }
  else
    let x_normalized := normalize_coord x cam.width
    let y_normalized := normalize_coord y cam.height
    { message := some { arbitration_id := 0x100, is_extended_id := false,
                        data := pack_ii x_normalized y_normalized },
      ok := true, cameraOpened := true, cameraReleased := true }

/-! ## main.py : process_eye_detection and the per-trigger cycle -/

/-- Behavior of the camera that `process_eye_detection` acquires: whether
the open succeeds and, per loop iteration index, the frame returned by
`camera.read()` (`none` models `ret == False`). -/
structure DetectionCamera (F : Type) where
  isOpened : Bool
  read : ℕ → Option F

/-- Result of the detection while-loop: the final `eye_midpoint`, the
final value of the `attempt` counter, and the number of `camera.read()`
calls performed. -/
structure LoopResult where
  eye_midpoint : Option (ℕ × ℕ)
  attempt : ℕ
  reads : ℕ
deriving DecidableEq, Repr

/-- The while loop of main.py lines 117-134
(`while attempt < max_attempts and eye_midpoint is None:`), recursing on
the remaining attempt budget (`fuel = max_attempts - attempt`) and
carrying the current `attempt` counter. A failed read hits the `break` at
line 122 before `attempt += 1`; a successful detection sets
`eye_midpoint`, increments `attempt`, and the loop condition then fails.
`detect` is the midpoint component of `detect_eyes` applied to the
flipped frame. -/
def detection_loop {F : Type} (read : ℕ → Option F)
    (detect : F → Option (ℕ × ℕ)) : ℕ → ℕ → LoopResult
  | attempt, 0 => ⟨none, attempt, 0⟩
  | attempt, fuel + 1 =>
    match read attempt with
    | none => ⟨none, attempt, 1⟩
    | some frame =>
      match detect frame with
      | some m => ⟨some m, attempt + 1, 1⟩
      | none =>
        let r := detection_loop read detect (attempt + 1) fuel
        ⟨r.eye_midpoint, r.attempt, r.reads + 1⟩

/-- `process_eye_detection` (main.py lines 104-140): `None` when the
camera fails to open, otherwise the loop's final `eye_midpoint`. -/
def process_eye_detection {F : Type} (cam : DetectionCamera F)
    (detect : F → Option (ℕ × ℕ)) (max_attempts : ℕ) : Option (ℕ × ℕ) :=
  if cam.isOpened then
    (detection_loop cam.read detect 0 max_attempts).eye_midpoint
  else none

/-- One trigger-handling cycle of `main` (main.py lines 162-176): run
`process_eye_detection`; on a midpoint send it, otherwise send
`ERROR_VALUES['no_eyes_detected']`; the value is the CAN message emitted
on the bus during the cycle, if any. -/
def trigger_cycle {F : Type} (cam : DetectionCamera F)
    (detect : F → Option (ℕ × ℕ)) (sendCam : ResolutionCamera) :
    Option CanMessage :=
  match process_eye_detection cam detect max_detection_attempts with
  | some (x, y) => (send_eye_coordinates sendCam (x : ℤ) (y : ℤ)).message
  | none =>
      (send_eye_coordinates sendCam no_eyes_detected.1 no_eyes_detected.2).message

/-! ## eye_utils.py : detect_eyes with its drawing side effects

The source draws into three names: `processed_frame` (the copy made at
line 54), `roi_color` (a NumPy view into `processed_frame`, line 77), and
the `frame` parameter of `process_detected_eyes`, which is
`processed_frame` (line 89). The input `frame` of `detect_eyes` is never
a drawing target. Each drawing call is modelled as a mark tagged with the
buffer it writes into. -/

/-- The two frame buffers alive inside `detect_eyes`: the caller's input
frame and the `processed_frame` copy. -/
inductive Buf
  | input
  | processed
deriving DecidableEq, Repr

/-- One drawing primitive executed by the code. -/
inductive Mark
  | faceRect (r : Rect)
  | eyeRect (e : Rect)
  | eyeCenter (c : ℕ × ℕ)
  | eyeText (c : ℕ × ℕ)
  | midCircle (c : ℕ × ℕ)
  | midText (c : ℕ × ℕ)
deriving DecidableEq, Repr

/-- The three draws for one valid eye (eye_utils.py lines 137-145):
rectangle on `roi_color` (a view of `processed_frame`), center circle and
coordinate text on `frame` (= `processed_frame`). -/
def eye_draws (face_x roi_y : ℕ) (e : Rect) : List (Buf × Mark) :=
  [(Buf.processed, Mark.eyeRect e),
   (Buf.processed, Mark.eyeCenter (eye_center face_x roi_y e)),
   (Buf.processed, Mark.eyeText (eye_center face_x roi_y e))]

/-- Drawing trace of `process_detected_eyes` (eye_utils.py lines 126-160):
per-eye draws plus the midpoint circle and label when a midpoint is
produced; nothing when the valid count is outside 1-2. -/
def process_detected_eyes_draws (eyes : List Rect) (face_x roi_y : ℕ) :
    List (Buf × Mark) :=
  let valid_eyes := validEyesOf eyes
  if 1 ≤ valid_eyes.length ∧ valid_eyes.length ≤ 2 then
    (valid_eyes.flatMap (eye_draws face_x roi_y)) ++
      (match process_detected_eyes eyes face_x roi_y with
       | some m => [(Buf.processed, Mark.midCircle m),
                    (Buf.processed, Mark.midText m)]
       | none => [])
  else []

/-- `roi_y = y + int(h * 0.2)` (eye_utils.py line 73), exact arithmetic. -/
def roi_y_of (f : Rect) : ℕ := f.y + f.h / 5

/-- `detect_eyes` (eye_utils.py lines 41-94): for each detected face in
detector order, draw the face rectangle on `processed_frame`, run eye
detection on the region of interest, and return on the first face
yielding a midpoint. `eyesFor` stands for the opaque
`eye_cascade.detectMultiScale` capability (face → eye candidates in ROI
coordinates). Returns the trace of tagged drawing operations together
with the midpoint result. -/
def detect_eyes (faces : List Rect) (eyesFor : Rect → List Rect) :
    List (Buf × Mark) × Option (ℕ × ℕ) :=
  match faces with
  | [] => ([], none)
  | f :: rest =>
    let draws := (Buf.processed, Mark.faceRect f) ::
      process_detected_eyes_draws (eyesFor f) f.x (roi_y_of f)
    match process_detected_eyes (eyesFor f) f.x (roi_y_of f) with
    | some m => (draws, some m)
    | none =>
      let tail := detect_eyes rest eyesFor
      (draws ++ tail.1, tail.2)

/-- Store semantics for a tagged draw: apply it to the pair
(input-frame annotation list, processed-frame annotation list). -/
def apply_draw (s : List Mark × List Mark) (d : Buf × Mark) :
    List Mark × List Mark :=
  match d.1 with
  | Buf.input => (s.1 ++ [d.2], s.2)
  | Buf.processed => (s.1, s.2 ++ [d.2])

/-! ## Spec-side definition used for a refinement comparison -/

/-- Modelled from the spec's words, for comparison with `normalize_coord`:
the spec states `nx = round(x / frameWidth * 100)` with clamping to
`[0, 100]`, i.e. rounding to the nearest integer instead of the code's
`int()` truncation. -/
def normalize_coord_round (x : ℤ) (width : ℕ) : ℤ :=
  max 0 (min 100 (round ((x : ℚ) / (width : ℚ) * 100)))

/-! ## Concrete test fixtures used by witnesses -/

/-- A frame source whose every read succeeds (frames are opaque; `ℕ`). -/
def okReader : ℕ → Option ℕ := fun n => some n

/-- A frame source whose every read fails. -/
def failReader : ℕ → Option ℕ := fun _ => none

/-- A detector that never finds eyes. -/
def noDetect : ℕ → Option (ℕ × ℕ) := fun _ => none

/-- Detection camera that opens and always reads successfully. -/
def okDetCam : DetectionCamera ℕ := ⟨true, okReader⟩

/-- Detection camera that opens but whose every read fails. -/
def failDetCam : DetectionCamera ℕ := ⟨true, failReader⟩

/-- Resolution-check camera that opens and reads a 640×480 frame. -/
def okSendCam : ResolutionCamera := ⟨true, true, 640, 480⟩

/-- Resolution-check camera that opens but whose read fails. -/
def badSendCam : ResolutionCamera := ⟨true, false, 640, 480⟩

/-- The message `send_eye_coordinates` emits for midpoint (320, 240) on a
640×480 frame. -/
def sample_message : CanMessage :=
  CanMessage.mk 0x100 false
    (pack_ii (normalize_coord 320 640) (normalize_coord 240 480))

/-! ## Helper lemmas -/

theorem sortByX_cons (a : Rect) (t : List Rect) :
    sortByX (a :: t) = insertByX a (sortByX t) := rfl

theorem length_insertByX (a : Rect) : ∀ l : List Rect,
    (insertByX a l).length = l.length + 1
  | [] => rfl
  | b :: t => by
    simp only [insertByX]
    split
    · simp
    · simp [length_insertByX a t]

theorem length_sortByX (l : List Rect) : (sortByX l).length = l.length := by
  induction l with
  | nil => rfl
  | cons a t ih =>
    rw [sortByX_cons, length_insertByX, ih]
    rfl

theorem mem_insertByX (b a : Rect) : ∀ l : List Rect,
    (b ∈ insertByX a l ↔ b = a ∨ b ∈ l)
  | [] => by simp [insertByX]
  | c :: t => by
    simp only [insertByX]
    split
    · simp [List.mem_cons]
    · simp only [List.mem_cons, mem_insertByX b a t]
      tauto

theorem mem_sortByX (b : Rect) : ∀ l : List Rect, (b ∈ sortByX l ↔ b ∈ l)
  | [] => Iff.rfl
  | a :: t => by
    rw [sortByX_cons, mem_insertByX]
    simp [mem_sortByX b t, eq_comm]

/-- With a positive height (as guaranteed by the detector's `minSize`),
the rational aspect-ratio bounds are the integer conditions
`h ≤ 2w ∧ w ≤ 2h`. -/
theorem valid_eye_eq_of_pos (e : Rect) (h : 0 < e.h) :
    valid_eye e = decide (e.h ≤ 2 * e.w ∧ e.w ≤ 2 * e.h) := by
  have hh : (0 : ℚ) < (e.h : ℚ) := by exact_mod_cast h
  simp only [valid_eye, decide_eq_decide, aspect_ratio,
    eye_aspect_ratio_min, eye_aspect_ratio_max]
  rw [le_div_iff₀ hh, div_le_iff₀ hh]
  constructor
  · rintro ⟨h1, h2⟩
    have h1q : (e.h : ℚ) ≤ 2 * (e.w : ℚ) := by linarith
    have h2q : (e.w : ℚ) ≤ 2 * (e.h : ℚ) := by linarith
    exact ⟨by exact_mod_cast h1q, by exact_mod_cast h2q⟩
  · rintro ⟨h1, h2⟩
    have h1q : (e.h : ℚ) ≤ 2 * (e.w : ℚ) := by exact_mod_cast h1
    have h2q : (e.w : ℚ) ≤ 2 * (e.h : ℚ) := by exact_mod_cast h2
    exact ⟨by linarith, by linarith⟩

/-- Python `int()` is monotone on exact rationals. -/
theorem py_int_mono : Monotone py_int := by
  intro q r hqr
  unfold py_int
  split_ifs with hq hr hr
  · exact Int.floor_mono hqr
  · exact absurd (le_trans hq hqr) hr
  · have h1 : (0 : ℤ) ≤ ⌊-q⌋ := Int.floor_nonneg.mpr (by linarith [not_le.mp hq])
    have h2 : (0 : ℤ) ≤ ⌊r⌋ := Int.floor_nonneg.mpr hr
    omega
  · have := Int.floor_mono (neg_le_neg hqr)
    omega

/-- For non-negative pixel coordinates the code's
`int((x / width) * 100)` is the integer floor division `(100 * x) / w`. -/
theorem normalize_coord_nonneg_eval (x : ℤ) (w : ℕ) (hx : 0 ≤ x) :
    normalize_coord x w = max 0 (min 100 ((100 * x) / (w : ℤ))) := by
  unfold normalize_coord py_int
  have hcast : (x : ℚ) / (w : ℚ) * 100 = ((100 * x : ℤ) : ℚ) / ((w : ℕ) : ℚ) := by
    push_cast
    ring
  have h0 : (0 : ℚ) ≤ ((100 * x : ℤ) : ℚ) / ((w : ℕ) : ℚ) :=
    div_nonneg (by exact_mod_cast mul_nonneg (by norm_num) hx) (Nat.cast_nonneg w)
  rw [hcast, if_pos h0, Rat.floor_intCast_div_natCast]

/-- For negative pixel coordinates (the sentinel) the code's
`int((x / width) * 100)` is `-((100 * (-x)) / w)`. -/
theorem normalize_coord_neg_eval (x : ℤ) (w : ℕ) (hw : 0 < w) (hx : x < 0) :
    normalize_coord x w = max 0 (min 100 (-((100 * (-x)) / (w : ℤ)))) := by
  unfold normalize_coord py_int
  have hwq : (0 : ℚ) < ((w : ℕ) : ℚ) := by exact_mod_cast hw
  have hxq : ((x : ℤ) : ℚ) < 0 := by exact_mod_cast hx
  have hneg : (x : ℚ) / (w : ℚ) * 100 < 0 := by
    apply mul_neg_of_neg_of_pos _ (by norm_num)
    exact div_neg_of_neg_of_pos hxq hwq
  have hcast : -((x : ℚ) / (w : ℚ) * 100) = ((100 * (-x) : ℤ) : ℚ) / ((w : ℕ) : ℚ) := by
    push_cast
    ring
  rw [if_neg (not_le.mpr hneg), hcast, Rat.floor_intCast_div_natCast]

/-- `struct.pack('ii', ...)` always yields 8 bytes. -/
theorem length_pack_ii (a b : ℤ) : (pack_ii a b).length = 8 := rfl

theorem reads_le_fuel {F : Type} (read : ℕ → Option F)
    (detect : F → Option (ℕ × ℕ)) : ∀ (a fuel : ℕ),
    (detection_loop read detect a fuel).reads ≤ fuel
  | _, 0 => Nat.le_refl 0
  | a, fuel + 1 => by
    simp only [detection_loop]
    cases hr : read a with
    | none =>
      dsimp only
      omega
    | some f =>
      dsimp only
      cases hd : detect f with
      | some m =>
        dsimp only
        omega
      | none =>
        have := reads_le_fuel read detect (a + 1) fuel
        dsimp only
        omega

theorem process_detected_eyes_draws_processed (eyes : List Rect)
    (face_x roi_y : ℕ) :
    ∀ d ∈ process_detected_eyes_draws eyes face_x roi_y,
      d.1 = Buf.processed := by
  intro d hd
  unfold process_detected_eyes_draws at hd
  by_cases hc : 1 ≤ (validEyesOf eyes).length ∧ (validEyesOf eyes).length ≤ 2
  · rw [if_pos hc] at hd
    rcases List.mem_append.mp hd with h | h
    · rcases List.mem_flatMap.mp h with ⟨e, _, he⟩
      simp only [eye_draws, List.mem_cons, List.mem_singleton] at he
      rcases he with h' | h' | h' | h' <;> simp_all
    · cases hm : process_detected_eyes eyes face_x roi_y with
      | some m => rw [hm] at h; simp only [List.mem_cons] at h; rcases h with h' | h' | h' <;> simp_all
      | none => rw [hm] at h; simp at h
  · rw [if_neg hc] at hd
    simp at hd

theorem detect_eyes_draws_processed (eyesFor : Rect → List Rect) :
    ∀ (faces : List Rect), ∀ d ∈ (detect_eyes faces eyesFor).1,
      d.1 = Buf.processed
  | [] => by intro d hd; simp [detect_eyes] at hd
  | f :: rest => by
    intro d hd
    unfold detect_eyes at hd
    cases hm : process_detected_eyes (eyesFor f) f.x (roi_y_of f) with
    | some m =>
      rw [hm] at hd
      simp only [List.mem_cons] at hd
      rcases hd with h | h
      · simp [h]
      · exact process_detected_eyes_draws_processed _ _ _ d h
    | none =>
      rw [hm] at hd
      simp only [List.cons_append, List.mem_cons, List.mem_append] at hd
      rcases hd with h | h | h
      · simp [h]
      · exact process_detected_eyes_draws_processed _ _ _ d h
      · exact detect_eyes_draws_processed eyesFor rest d h

theorem foldl_apply_draw_fst : ∀ (tr : List (Buf × Mark))
    (s : List Mark × List Mark),
    (∀ d ∈ tr, d.1 = Buf.processed) → (tr.foldl apply_draw s).1 = s.1
  | [], s, _ => rfl
  | d :: t, s, h => by
    have hd : d.1 = Buf.processed := h d (List.mem_cons_self d t)
    have ht : ∀ x ∈ t, x.1 = Buf.processed := fun x hx => h x (List.mem_cons_of_mem d hx)
    rw [List.foldl_cons, foldl_apply_draw_fst t _ ht]
    unfold apply_draw
    rw [hd]

/-! ## Claim theorems -/

/-- C1 (code-bug evidence): on a NotFound trigger cycle the code passes
the configured sentinel `(-1, -1)` through `send_eye_coordinates`, whose
normalization truncates `-1/width*100` to `0` and whose clamp keeps it at
`0`, so the emitted payload decodes to `(0, 0)` — the very value the
claim says is never sent — and not to the sentinel pair. -/
theorem C1_notfound_payload_is_zero :
    trigger_cycle okDetCam noDetect okSendCam =
      some (CanMessage.mk 0x100 false (pack_ii 0 0)) ∧
    normalize_coord no_eyes_detected.1 640 = 0 ∧
    normalize_coord no_eyes_detected.2 480 = 0 ∧
    pack_ii 0 0 ≠ pack_ii no_eyes_detected.1 no_eyes_detected.2 := by
  have hx : normalize_coord (-1 : ℤ) 640 = 0 := by
    rw [normalize_coord_neg_eval (-1) 640 (by norm_num) (by norm_num)]
    decide
  have hy : normalize_coord (-1 : ℤ) 480 = 0 := by
    rw [normalize_coord_neg_eval (-1) 480 (by norm_num) (by norm_num)]
    decide
  refine ⟨?_, hx, hy, by decide⟩
  have hcycle : trigger_cycle okDetCam noDetect okSendCam =
      some (CanMessage.mk 0x100 false
        (pack_ii (normalize_coord (-1) 640) (normalize_coord (-1) 480))) := rfl
  rw [hcycle, hx, hy]

/-- C2 counterexample: the code normalizes with Python `int()`
(truncation), not `round`: a Found midpoint with x = 4 on a 640-wide
frame is sent as 0, while the claim's `round(4/640*100) = round(0.625)`
is 1. -/
theorem C2_truncation_differs_from_round :
    normalize_coord 4 640 = 0 ∧ normalize_coord_round 4 640 = 1 ∧
    normalize_coord 4 640 ≠ normalize_coord_round 4 640 := by
  have h1 : normalize_coord 4 640 = 0 := by
    rw [normalize_coord_nonneg_eval 4 640 (by norm_num)]
    decide
  have h2 : normalize_coord_round 4 640 = 1 := by
    unfold normalize_coord_round
    have hq : ((4 : ℤ) : ℚ) / ((640 : ℕ) : ℚ) * 100 = 5 / 8 := by norm_num
    rw [hq]
    norm_num [round_eq]
  exact ⟨h1, h2, by rw [h1, h2]; decide⟩

/-- C2 (amended): the normalized coordinate sent is the truncation
`int(x/w*100)` (floor, for the non-negative Found midpoints), clamped
into `[0, 100]`; the three example midpoints normalize as the claim
states, and normalization is monotone in each coordinate. -/
theorem C2_normalization_monotone_clamped (x1 x2 : ℤ) (w : ℕ)
    (hx : x1 ≤ x2) :
    normalize_coord x1 w ≤ normalize_coord x2 w ∧
    (0 ≤ normalize_coord x1 w ∧ normalize_coord x1 w ≤ 100) ∧
    normalize_coord 0 640 = 0 ∧ normalize_coord 0 480 = 0 ∧
    normalize_coord 640 640 = 100 ∧ normalize_coord 480 480 = 100 ∧
    normalize_coord 320 640 = 50 ∧ normalize_coord 240 480 = 50 := by
  refine ⟨?_, ⟨le_max_left 0 _, max_le (by norm_num) (min_le_left _ _)⟩,
    ?_, ?_, ?_, ?_, ?_, ?_⟩
  · have hq : (x1 : ℚ) / (w : ℚ) * 100 ≤ (x2 : ℚ) / (w : ℚ) * 100 := by
      have hx12 : (x1 : ℚ) ≤ (x2 : ℚ) := by exact_mod_cast hx
      have hinv : (0 : ℚ) ≤ ((w : ℚ))⁻¹ := inv_nonneg.mpr (Nat.cast_nonneg w)
      have hdiv := mul_le_mul_of_nonneg_right hx12 hinv
      rw [div_eq_mul_inv, div_eq_mul_inv]
      exact mul_le_mul_of_nonneg_right hdiv (by norm_num)
    unfold normalize_coord
    exact max_le_max le_rfl (min_le_min le_rfl (py_int_mono hq))
  · rw [normalize_coord_nonneg_eval 0 640 (by norm_num)]
    decide
  · rw [normalize_coord_nonneg_eval 0 480 (by norm_num)]
    decide
  · rw [normalize_coord_nonneg_eval 640 640 (by norm_num)]
    decide
  · rw [normalize_coord_nonneg_eval 480 480 (by norm_num)]
    decide
  · rw [normalize_coord_nonneg_eval 320 640 (by norm_num)]
    decide
  · rw [normalize_coord_nonneg_eval 240 480 (by norm_num)]
    decide

/-- Witness for C2 (amended) at x1 = 0, x2 = 4, w = 640. -/
theorem C2_normalization_monotone_clamped_witness :
    normalize_coord 0 640 ≤ normalize_coord 4 640 ∧
    (0 ≤ normalize_coord 0 640 ∧ normalize_coord 0 640 ≤ 100) ∧
    normalize_coord 0 640 = 0 ∧ normalize_coord 0 480 = 0 ∧
    normalize_coord 640 640 = 100 ∧ normalize_coord 480 480 = 100 ∧
    normalize_coord 320 640 = 50 ∧ normalize_coord 240 480 = 50 :=
  C2_normalization_monotone_clamped 0 4 640 (by decide)

/-- C3 counterexample: a cycle whose detection-loop camera reads fail and
whose send-step resolution read also fails emits no CAN message at all —
the trigger goes unanswered, contradicting "exactly one response message
is sent ... never in an unanswered trigger". -/
theorem C3_unanswered_trigger :
    trigger_cycle failDetCam noDetect badSendCam = none := rfl

/-- C3 (amended): provided the send step's camera resolution check opens
and reads successfully, every trigger cycle emits a response message
whatever the detection outcome; and a mid-loop frame-read failure aborts
the detection cycle at that attempt (one read, no retry) with the
NotFound result. -/
theorem C3_one_response_when_send_camera_ok {F : Type}
    (cam : DetectionCamera F) (detect : F → Option (ℕ × ℕ))
    (sendCam : ResolutionCamera) (read : ℕ → Option F) (a fuel : ℕ)
    (hOpen : sendCam.isOpened = true) (hRead : sendCam.readOk = true)
    (hAbort : read a = none) :
    (trigger_cycle cam detect sendCam).isSome = true ∧
    detection_loop read detect a (fuel + 1) = ⟨none, a, 1⟩ := by
  constructor
  · have hsend : ∀ x y : ℤ,
        (send_eye_coordinates sendCam x y).message.isSome = true := by
      intro x y
      unfold send_eye_coordinates
      rw [hOpen, hRead]
      simp
    unfold trigger_cycle
    cases hproc : process_eye_detection cam detect max_detection_attempts with
    | none =>
      dsimp only
      exact hsend _ _
    | some m =>
      obtain ⟨mx, my⟩ := m
      dsimp only
      exact hsend _ _
  · simp only [detection_loop]
    rw [hAbort]

/-- Witness for C3 (amended). -/
theorem C3_one_response_witness :
    (trigger_cycle okDetCam noDetect okSendCam).isSome = true ∧
    detection_loop failReader noDetect 0 (29 + 1) = ⟨none, 0, 1⟩ :=
  C3_one_response_when_send_camera_ok okDetCam noDetect okSendCam
    failReader 0 29 rfl rfl rfl

/-- C4: every message that `send_eye_coordinates` emits has arbitration
id equal to the configured `data_id` (0x100), a standard (non-extended)
identifier, and a payload that is exactly the two normalized integers
packed in the `'ii'` layout, 8 bytes, with no tag or length byte. -/
theorem C4_response_message_shape (cam : ResolutionCamera) (x y : ℤ)
    (msg : CanMessage)
    (h : (send_eye_coordinates cam x y).message = some msg) :
    msg.arbitration_id = data_id ∧
    msg.is_extended_id = false ∧
    msg.data = pack_ii (normalize_coord x cam.width)
      (normalize_coord y cam.height) ∧
    msg.data.length = 8 := by
  obtain ⟨o, rOk, wdt, hgt⟩ := cam
  cases o with
  | false => simp [send_eye_coordinates] at h
  | true =>
    cases rOk with
    | false => simp [send_eye_coordinates] at h
    | true =>
      have h' : CanMessage.mk 0x100 false
          (pack_ii (normalize_coord x wdt) (normalize_coord y hgt)) = msg :=
        Option.some.inj h
      subst h'
      exact ⟨rfl, rfl, rfl, length_pack_ii _ _⟩

/-- Witness for C4 at midpoint (320, 240) on a 640×480 frame. -/
theorem C4_response_message_shape_witness :
    sample_message.arbitration_id = data_id ∧
    sample_message.is_extended_id = false ∧
    sample_message.data = pack_ii (normalize_coord 320 okSendCam.width)
      (normalize_coord 240 okSendCam.height) ∧
    sample_message.data.length = 8 :=
  C4_response_message_shape okSendCam 320 240 sample_message rfl

/-- C5: with exactly two valid eye candidates the reported midpoint is
the componentwise floor-division average of the two full-frame centers,
and with exactly one valid candidate it is that candidate's center. -/
theorem C5_midpoint_average (eyes : List Rect) (face_x roi_y : ℕ) :
    (∀ e1 e2, validEyesOf eyes = [e1, e2] →
      process_detected_eyes eyes face_x roi_y =
        some (((eye_center face_x roi_y e1).1 + (eye_center face_x roi_y e2).1) / 2,
              ((eye_center face_x roi_y e1).2 + (eye_center face_x roi_y e2).2) / 2)) ∧
    (∀ e1, validEyesOf eyes = [e1] →
      process_detected_eyes eyes face_x roi_y =
        some (eye_center face_x roi_y e1)) := by
  constructor
  · intro e1 e2 h
    unfold process_detected_eyes
    rw [h]
    rfl
  · intro e1 h
    unfold process_detected_eyes
    rw [h]
    rfl

/-- Witness for C5: centers (100, 50) and (140, 54) give midpoint exactly
(120, 52); a single eye with center (80, 60) gives exactly (80, 60). -/
theorem C5_midpoint_average_witness :
    process_detected_eyes [Rect.mk 90 40 20 20, Rect.mk 130 44 20 20] 0 0 =
      some (120, 52) ∧
    process_detected_eyes [Rect.mk 70 50 20 20] 0 0 = some (80, 60) := by
  have hv1 : valid_eye (Rect.mk 90 40 20 20) = true := by
    rw [valid_eye_eq_of_pos _ (by decide)]
    decide
  have hv2 : valid_eye (Rect.mk 130 44 20 20) = true := by
    rw [valid_eye_eq_of_pos _ (by decide)]
    decide
  have hv3 : valid_eye (Rect.mk 70 50 20 20) = true := by
    rw [valid_eye_eq_of_pos _ (by decide)]
    decide
  constructor
  · have hval : validEyesOf [Rect.mk 90 40 20 20, Rect.mk 130 44 20 20] =
        [Rect.mk 90 40 20 20, Rect.mk 130 44 20 20] := by
      unfold validEyesOf
      rw [List.filter_cons_of_pos hv1, List.filter_cons_of_pos hv2,
        List.filter_nil]
      decide
    have h := (C5_midpoint_average
      [Rect.mk 90 40 20 20, Rect.mk 130 44 20 20] 0 0).1
      (Rect.mk 90 40 20 20) (Rect.mk 130 44 20 20) hval
    simpa [eye_center] using h
  · have hval : validEyesOf [Rect.mk 70 50 20 20] = [Rect.mk 70 50 20 20] := by
      unfold validEyesOf
      rw [List.filter_cons_of_pos hv3, List.filter_nil]
      decide
    have h := (C5_midpoint_average [Rect.mk 70 50 20 20] 0 0).2
      (Rect.mk 70 50 20 20) hval
    simpa [eye_center] using h

/-- C6: a candidate survives the aspect-ratio filter iff its
width/height ratio lies within the inclusive configured bounds
`[eye_aspect_ratio_min, eye_aspect_ratio_max]`. -/
theorem C6_filter_iff (eyes : List Rect) (e : Rect)
    (_hpos : ∀ x ∈ eyes, 0 < x.h) :
    e ∈ validEyesOf eyes ↔
      (e ∈ eyes ∧ eye_aspect_ratio_min ≤ aspect_ratio e ∧
        aspect_ratio e ≤ eye_aspect_ratio_max) := by
  unfold validEyesOf
  rw [mem_sortByX, List.mem_filter]
  simp only [valid_eye, decide_eq_true_eq]

/-- Witness for C6 on a two-candidate set (one in bounds, one with
aspect ratio 5). -/
theorem C6_filter_iff_witness :
    Rect.mk 0 0 20 20 ∈ validEyesOf [Rect.mk 0 0 20 20, Rect.mk 5 0 50 10] ↔
      (Rect.mk 0 0 20 20 ∈ [Rect.mk 0 0 20 20, Rect.mk 5 0 50 10] ∧
        eye_aspect_ratio_min ≤ aspect_ratio (Rect.mk 0 0 20 20) ∧
        aspect_ratio (Rect.mk 0 0 20 20) ≤ eye_aspect_ratio_max) :=
  C6_filter_iff [Rect.mk 0 0 20 20, Rect.mk 5 0 50 10]
    (Rect.mk 0 0 20 20) (by decide)

/-- C7: the per-face resolver returns `None` exactly when the filtered
valid-eye count is 0 or greater than 2; a midpoint is produced exactly
for counts 1 and 2. -/
theorem C7_none_iff_count (eyes : List Rect) (face_x roi_y : ℕ) :
    process_detected_eyes eyes face_x roi_y = none ↔
      ((validEyesOf eyes).length = 0 ∨ 2 < (validEyesOf eyes).length) := by
  unfold process_detected_eyes
  rcases hL : validEyesOf eyes with _ | ⟨a, _ | ⟨b, _ | ⟨c, t⟩⟩⟩ <;>
    simp [hL]

/-- C8: the detection loop performs at most `max_attempts` frame reads
before terminating, and with a budget of 1 and a source that reads
successfully but never yields eyes it returns NotFound after exactly one
attempt (attempt counter 1, one read). -/
theorem C8_bounded_attempts {F : Type} (read : ℕ → Option F)
    (detect : F → Option (ℕ × ℕ)) (max_attempts a : ℕ)
    (hread : ∀ n, read n ≠ none) (hdet : ∀ f, detect f = none) :
    (detection_loop read detect a max_attempts).reads ≤ max_attempts ∧
    detection_loop read detect 0 1 = ⟨none, 1, 1⟩ := by
  refine ⟨reads_le_fuel read detect a max_attempts, ?_⟩
  cases hr : read 0 with
  | none => exact absurd hr (hread 0)
  | some f =>
    have hstep : detection_loop read detect 0 1 =
        match read 0 with
        | none => ⟨none, 0, 1⟩
        | some frame =>
          match detect frame with
          | some m => ⟨some m, 1, 1⟩
          | none =>
            let r := detection_loop read detect 1 0
            ⟨r.eye_midpoint, r.attempt, r.reads + 1⟩ := rfl
    rw [hstep, hr]
    simp only [hdet]
    rfl

/-- Witness for C8 with budget 1 and an eye-free frame source. -/
theorem C8_bounded_attempts_witness :
    (detection_loop okReader noDetect 0 1).reads ≤ 1 ∧
    detection_loop okReader noDetect 0 1 = ⟨none, 1, 1⟩ :=
  C8_bounded_attempts okReader noDetect 1 0
    (fun n => by simp [okReader]) (fun f => rfl)

/-- C9 (code-bug evidence): when the resolution-check camera in
`send_eye_coordinates` opens but its frame read fails, the function
returns early with the handle still open — `camera.release()` is never
called on that path — and no message is sent. -/
theorem C9_send_read_failure_leaks_handle :
    (send_eye_coordinates badSendCam (-1) (-1)).cameraOpened = true ∧
    (send_eye_coordinates badSendCam (-1) (-1)).cameraReleased = false ∧
    (send_eye_coordinates badSendCam (-1) (-1)).message = none :=
  ⟨rfl, rfl, rfl⟩

/-- C10: every drawing operation `detect_eyes` performs targets the
`processed_frame` copy (directly or through the `roi_color` view), so
folding the draw trace over any buffer store leaves the input frame's
annotation list unchanged. -/
theorem C10_input_frame_unchanged (faces : List Rect)
    (eyesFor : Rect → List Rect) (im pm : List Mark) :
    (((detect_eyes faces eyesFor).1).foldl apply_draw (im, pm)).1 = im ∧
    ((detect_eyes faces eyesFor).1).all (fun d => d.1 == Buf.processed) = true := by
  have hall := detect_eyes_draws_processed eyesFor faces
  refine ⟨foldl_apply_draw_fst _ _ hall, ?_⟩
  rw [List.all_eq_true]
  intro d hd
  rw [beq_iff_eq]
  exact hall d hd

end SmartMirror
